import Mathlib

/-!
Verification of the jung interpreter (C sources under src/) against its
specification.  The development shallowly embeds the value model and the
fragment of the tree-walking evaluator that the checked properties touch.

Conventions of the embedding:
* IEEE-754 doubles are idealized as exact rationals (ℚ); `(long)` casts on
  integer-valued doubles are exact, and the C `%g` formatting is idealized
  as an exact decimal expansion (no theorem depends on that branch).
* C strings are Lean `String`s (byte length = character count on the ASCII
  data the theorems use).
* The by-value `Value` struct of the interpreter (second compilation unit of
  builtins.c, used by interpreter.c) is the model; heap buffers are inline
  Lean data, and where the C mutates a buffer that is subsequently freed the
  embedding computes the mutated datum and discards it, mirroring the
  `val_free` at the call site.
-/

namespace Jung

/-- Value: the tagged union of the by-value model (`value.h` / the `val_*`
compilation unit).  Arrays carry their items inline, objects carry the
entries of their backing `Table` inline; function and builtin payloads are
abstracted to identifiers since no theorem calls through them. -/
inductive Value where
  | vnull
  | vbool (b : Bool)
  | vnum (n : ℚ)
  | vstr (s : String)
  | varr (items : List Value)
  | vobj (entries : List (String × Value))
  | vfunc (id : Nat)
  | vbuiltin (id : Nat)

mutual
/-- val_copy: primitives copy directly; strings duplicate the buffer (same
content); arrays copy deeply, item by item; objects share the backing table
(`refcount++` in the C) — in this pure model the shared table is the same
inline entry list. -/
def val_copy : Value → Value
  | .vnull => .vnull
  | .vbool b => .vbool b
  | .vnum n => .vnum n
  | .vstr s => .vstr s
  | .varr items => .varr (val_copy_items items)
  | .vobj entries => .vobj entries
  | .vfunc f => .vfunc f
  | .vbuiltin f => .vbuiltin f

/-- The element-wise deep copy loop of val_copy on an array payload. -/
def val_copy_items : List Value → List Value
  | [] => []
  | v :: rest => val_copy v :: val_copy_items rest
end

mutual
/-- A deep copy leaves a pure value unchanged (the C distinction between the
copy and the original is aliasing, which the state-level embedding expresses
by never writing the mutated copy back). -/
theorem val_copy_id : ∀ v : Value, val_copy v = v
  | .vnull => rfl
  | .vbool _ => rfl
  | .vnum _ => rfl
  | .vstr _ => rfl
  | .varr items => by rw [val_copy, val_copy_items_id items]
  | .vobj _ => rfl
  | .vfunc _ => rfl
  | .vbuiltin _ => rfl

theorem val_copy_items_id : ∀ l : List Value, val_copy_items l = l
  | [] => rfl
  | v :: rest => by rw [val_copy_items, val_copy_id v, val_copy_items_id rest]
end

/-- val_is_truthy (builtins.c val-unit, lines 848-860): null and false are
falsy, numbers by `!= 0`, strings by `len > 0`, arrays by `count > 0`,
objects, functions and builtins always truthy. -/
def val_is_truthy : Value → Bool
  | .vnull => false
  | .vbool b => b
  | .vnum n => decide (n ≠ 0)
  | .vstr s => decide (0 < s.length)
  | .varr items => decide (0 < items.length)
  | .vobj _ => true
  | .vfunc _ => true
  | .vbuiltin _ => true

/-- val_equal (builtins.c val-unit, lines 862-873): differing type tags
compare unequal; null/bool/number by value; strings by length then byte
content; every other tag (arrays, objects, functions, builtins) falls to the
`default` arm and returns 0. -/
def val_equal : Value → Value → Bool
  | .vnull, .vnull => true
  | .vbool a, .vbool b => a == b
  | .vnum a, .vnum b => decide (a = b)
  | .vstr a, .vstr b => a.length == b.length && a == b
  | _, _ => false

/-- Truncation toward zero, the rounding of a C `(long)` cast and of
`trunc`. -/
def rat_trunc (q : ℚ) : ℤ := if 0 ≤ q then ⌊q⌋ else ⌈q⌉

/-- Fractional decimal digits of a value in `[0,1)`, up to a digit budget;
part of the idealized `%g` rendering. -/
def dec_digits : Nat → ℚ → String
  | 0, _ => ""
  | Nat.succ k, frac =>
      if frac = 0 then ""
      else toString ⌊frac * 10⌋ ++ dec_digits k (frac * 10 - (⌊frac * 10⌋ : ℚ))

/-- Idealization of the C `%g` number format: exact decimal expansion with
up to 17 fractional digits.  No theorem in this file depends on this branch
of the rendering. -/
def rat_g_format (q : ℚ) : String :=
  (if q < 0 then "-" else "") ++
  toString ⌊|q|⌋ ++
  (if |q| - (⌊|q|⌋ : ℚ) = 0 then "" else "." ++ dec_digits 17 (|q| - (⌊|q|⌋ : ℚ)))

/-- Number rendering of val_to_string: integer-valued doubles in
`[-1e15, 1e15]` print as `%ld` (no decimal point), everything else through
`%g` (idealized).  The C compares the double against ±1e15 directly; under
the first conjunct the value equals its floor, so the range check is stated
on the floor. -/
def format_double (n : ℚ) : String :=
  if n = (⌊n⌋ : ℚ) ∧ -(10 : ℤ) ^ 15 ≤ ⌊n⌋ ∧ ⌊n⌋ ≤ (10 : ℤ) ^ 15 then toString ⌊n⌋
  else rat_g_format n

mutual
/-- val_to_string (builtins.c val-unit, lines 875-966): null/true/false
literals, numbers via format_double, strings as themselves, arrays as
`[a, b]` with string items quoted, objects as key: value pairs in braces
with string values quoted (modeled in insertion order; the C iterates hash
buckets), functions and builtins as opaque markers (the C includes the
function name, which the model abstracts away). -/
def val_to_string : Value → String
  | .vnull => "null"
  | .vbool b => if b then "true" else "false"
  | .vnum n => format_double n
  | .vstr s => s
  | .varr items => "[" ++ arr_body_string true items ++ "]"
  | .vobj entries => "\x7b" ++ obj_body_string true entries ++ "\x7d"
  | .vfunc _ => "<fn>"
  | .vbuiltin _ => "<builtin>"

/-- The array-rendering loop of val_to_string: separator before every item
but the first, string items quoted. -/
def arr_body_string : Bool → List Value → String
  | _, [] => ""
  | first, v :: rest =>
      (if first then "" else ", ") ++
      (match v with
       | .vstr s => "\"" ++ s ++ "\""
       | _ => val_to_string v) ++
      arr_body_string false rest

/-- The object-rendering loop of val_to_string: `key: value`, string values
quoted. -/
def obj_body_string : Bool → List (String × Value) → String
  | _, [] => ""
  | first, (k, v) :: rest =>
      (if first then "" else ", ") ++ k ++ ": " ++
      (match v with
       | .vstr s => "\"" ++ s ++ "\""
       | _ => val_to_string v) ++
      obj_body_string false rest
end

/-- Token kinds (lexer.h), restricted to the members the embedding uses. -/
inductive TokenType where
  | tokNumber
  | tokString
  | tokIdentifier
  | tokTrue
  | tokFalse
  | tokNull
  | tokLet
  | tokIf
  | tokElse
  | tokWhile
  | tokFor
  | tokIn
  | tokPrint
  | tokFn
  | tokReturn
  | tokBreak
  | tokContinue
  | tokImport
  | tokTry
  | tokCatch
  | tokThrow
  | tokClass
  | tokNew
  | tokThis
  | tokAnd
  | tokOr
  | tokNot
  | tokPlus
  | tokMinus
  | tokMultiply
  | tokDivide
  | tokModulo
  | tokEq
  | tokNeq
  | tokGt
  | tokLt
  | tokGte
  | tokLte
deriving DecidableEq

/-- check_keyword (lexer.c, lines 155-198): the standard keywords followed
by the Jungian aliases, in source order; any other word is an identifier.
Note that `complex` appears in no arm. -/
def check_keyword (word : String) : TokenType :=
  if word = "let" then .tokLet
  else if word = "if" then .tokIf
  else if word = "else" then .tokElse
  else if word = "while" then .tokWhile
  else if word = "for" then .tokFor
  else if word = "in" then .tokIn
  else if word = "print" then .tokPrint
  else if word = "fn" then .tokFn
  else if word = "return" then .tokReturn
  else if word = "break" then .tokBreak
  else if word = "continue" then .tokContinue
  else if word = "import" then .tokImport
  else if word = "try" then .tokTry
  else if word = "catch" then .tokCatch
  else if word = "throw" then .tokThrow
  else if word = "class" then .tokClass
  else if word = "new" then .tokNew
  else if word = "this" then .tokThis
  else if word = "true" then .tokTrue
  else if word = "false" then .tokFalse
  else if word = "null" then .tokNull
  else if word = "and" then .tokAnd
  else if word = "or" then .tokOr
  else if word = "not" then .tokNot
  else if word = "dream" then .tokFn
  else if word = "archetype" then .tokClass
  else if word = "project" then .tokPrint
  else if word = "integrate" then .tokImport
  else if word = "manifest" then .tokReturn
  else if word = "unconscious" then .tokNull
  else if word = "Self" then .tokThis
  else if word = "emerge" then .tokNew
  else if word = "perceive" then .tokLet
  else if word = "confront" then .tokTry
  else if word = "embrace" then .tokCatch
  else if word = "reject" then .tokThrow
  else if word = "individuation" then .tokFn
  else .tokIdentifier

/-- bi_len (builtins.c, lines 21-26): string length or array count; any
other argument kind, objects included, falls through to `val_number(0)`. -/
def bi_len : List Value → Value × List Value
  | [] => (.vnum 0, [])
  | a :: rest =>
      match a with
      | .vstr s => (.vnum (s.length : ℚ), a :: rest)
      | .varr items => (.vnum (items.length : ℚ), a :: rest)
      | _ => (.vnum 0, a :: rest)

/-- bi_push (builtins.c, lines 29-33): appends a copy of the second argument
to the array held in the first argument slot.  The second component is the
argument vector after the call; the interpreter frees that vector
(interpreter.c, lines 522-524), so the mutation never reaches the caller's
variables. -/
def bi_push : List Value → Value × List Value
  | a0 :: a1 :: rest =>
      match a0 with
      | .varr items => (.vnull, .varr (items ++ [val_copy a1]) :: a1 :: rest)
      | _ => (.vnull, a0 :: a1 :: rest)
  | args => (.vnull, args)

/-- bi_method_push (builtins.c, lines 417-421): identical body to bi_push,
registered under the desugared method name. -/
def bi_method_push : List Value → Value × List Value
  | a0 :: a1 :: rest =>
      match a0 with
      | .varr items => (.vnull, .varr (items ++ [val_copy a1]) :: a1 :: rest)
      | _ => (.vnull, a0 :: a1 :: rest)
  | args => (.vnull, args)

/-- bi_jsonParse (builtins.c, lines 505-511): a stub.  Non-string or missing
arguments return null, and the string case also returns null — the comment
in the source reads that a full JSON parser would go here. -/
def bi_jsonParse : List Value → Value × List Value
  | [] => (.vnull, [])
  | a :: rest =>
      match a with
      | .vstr _ => (.vnull, a :: rest)
      | _ => (.vnull, a :: rest)

/-- bi_stringify (builtins.c, lines 595-600): renders the first argument
with val_to_string. -/
def bi_stringify : List Value → Value × List Value
  | [] => (.vstr "", [])
  | a :: rest => (.vstr (val_to_string a), a :: rest)

/-- The builtin registry (builtins_register), restricted to the operations
the verified fragment calls.  Each builtin returns its result and the
argument vector after the call; the interpreter frees that vector. -/
def builtins_lookup (name : String) : Option (List Value → Value × List Value) :=
  if name = "len" then some bi_len
  else if name = "push" then some bi_push
  else if name = "__method_push" then some bi_method_push
  else if name = "jsonParse" then some bi_jsonParse
  else if name = "stringify" then some bi_stringify
  else none

/-! ## AST fragment

The node kinds (parser.h) that the checked properties exercise.  Statement
kinds for loops, functions, classes and imports are outside the fragment;
the evaluator paths modeled below note where a fall-through depends on the
function/class registries, which stay empty in this fragment. -/

/-- Expression nodes of the fragment. -/
inductive Expr where
  | num (n : ℚ)
  | str (s : String)
  | boolLit (b : Bool)
  | nullLit
  | var (name : String)
  | arrLit (elems : List Expr)
  | binary (op : TokenType) (l r : Expr)
  | index (arrExpr idxExpr : Expr)
  | call (name : String) (args : List Expr)

/-- Statement nodes of the fragment.  objAssign is the bracket form of
NODE_OBJ_ASSIGN (`container[key] = value`); tryCatch carries the optional
catch variable. -/
inductive Stmt where
  | print (e : Expr)
  | assign (name : String) (value : Expr)
  | objAssign (objExpr keyExpr valueExpr : Expr)
  | tryCatch (tryBody : List Stmt) (catchVar : Option String) (catchBody : List Stmt)
  | throwStmt (e : Expr)
  | exprStmt (e : Expr)

/-- A scope frame or object table: ordered string-keyed entries. -/
abbrev Scope := List (String × Value)

/-- table_get on an entry list. -/
def scope_get : Scope → String → Option Value
  | [], _ => none
  | (k, w) :: rest, name => if k = name then some w else scope_get rest name

/-- table_set on an entry list: update in place if the key exists, append
otherwise. -/
def scope_set : Scope → String → Value → Scope
  | [], name, v => [(name, v)]
  | (k, w) :: rest, name, v =>
      if k = name then (k, v) :: rest else (k, w) :: scope_set rest name v

/-- Interpreter context (interpreter.h), restricted to the parts the
fragment touches: the scope stack (head = innermost, always nonempty in
runs), the globals table, and the stdout lines printed so far.  The
function, class and builtin registries are fixed (empty, empty, and
builtins_lookup); try_depth and the exception message live in the execution
outcome; break/continue/return flags never arise in the fragment (no loops
or user functions). -/
structure InterpState where
  scopes : List Scope
  globals : Scope
  output : List String

/-- The var-lookup loop of interp_get_var over the scope stack. -/
def lookup_scopes : List Scope → String → Option Value
  | [], _ => none
  | sc :: rest, name =>
      match scope_get sc name with
      | some v => some v
      | none => lookup_scopes rest name

/-- interp_get_var (interpreter.c, lines 61-69): innermost scope outward,
then globals. -/
def interp_get_var (st : InterpState) (name : String) : Option Value :=
  match lookup_scopes st.scopes name with
  | some v => some v
  | none => scope_get st.globals name

/-- The write-through search of interp_set_var: update the innermost scope
that already binds the name, or report that none does. -/
def set_in_scopes : List Scope → String → Value → Option (List Scope)
  | [], _, _ => none
  | sc :: rest, name, v =>
      if (scope_get sc name).isSome then some (scope_set sc name v :: rest)
      else
        match set_in_scopes rest name v with
        | some rest2 => some (sc :: rest2)
        | none => none

/-- Define a binding in the current (innermost) scope. -/
def set_in_head : List Scope → String → Value → List Scope
  | [], name, v => [[(name, v)]]
  | sc :: rest, name, v => scope_set sc name v :: rest

/-- interp_set_var (interpreter.c, lines 71-88): write through to an
existing binding in the scope chain, else to an existing global, else define
in the current scope. -/
def interp_set_var (st : InterpState) (name : String) (v : Value) : InterpState :=
  match set_in_scopes st.scopes name v with
  | some scopes2 => { st with scopes := scopes2 }
  | none =>
      if (scope_get st.globals name).isSome then
        { st with globals := scope_set st.globals name v }
      else { st with scopes := set_in_head st.scopes name v }

/-- interp_def_var (interpreter.c, lines 90-93): always define in the
current scope. -/
def interp_def_var (st : InterpState) (name : String) (v : Value) : InterpState :=
  { st with scopes := set_in_head st.scopes name v }

/-- push_scope: a fresh empty frame becomes the current scope. -/
def push_scope (st : InterpState) : InterpState :=
  { st with scopes := [] :: st.scopes }

/-- pop_scope: drop the current frame. -/
def pop_scope (st : InterpState) : InterpState :=
  { st with scopes := st.scopes.tail }

/-- The scope unwinding loop at a try checkpoint: pop frames until the depth
saved on entry to the try statement. -/
def restore_scopes (savedDepth : Nat) (st : InterpState) : InterpState :=
  { st with scopes := st.scopes.drop (st.scopes.length - savedDepth) }

/-- Outcome of an expression evaluation: a value, or an exception unwinding
toward the nearest try checkpoint.  Runtime errors reach the same checkpoint
(runtime_error delegates to throw_exception when try_depth > 0) and abort
the process at top level, so the embedding gives both one constructor;
messages are modeled without the `[line n]` prefix since nodes carry no
line numbers here. -/
inductive ERes where
  | ok (v : Value)
  | thrown (msg : String)

/-- Outcome of evaluating an argument or element list. -/
inductive EListRes where
  | okL (vs : List Value)
  | thrownL (msg : String)

/-- The arithmetic / comparison switch of eval_node for two numeric
operands (interpreter.c, lines 229-253).  Division checks for zero, then
uses C `long` division — truncation toward zero — when both operands equal
their floor (integer division semantics); modulo is fmod, idealized as the
exact truncated remainder.  An operator outside the switch falls through to
the unsupported-operand error, as in the source. -/
def numeric_binop (op : TokenType) (l r : ℚ) : ERes :=
  match op with
  | .tokPlus => .ok (.vnum (l + r))
  | .tokMinus => .ok (.vnum (l - r))
  | .tokMultiply => .ok (.vnum (l * r))
  | .tokDivide =>
      if r = 0 then .thrown "division by zero"
      else if l = (⌊l⌋ : ℚ) ∧ r = (⌊r⌋ : ℚ) then
        .ok (.vnum ((rat_trunc l).tdiv (rat_trunc r) : ℚ))
      else .ok (.vnum (l / r))
  | .tokModulo =>
      if r = 0 then .thrown "modulo by zero"
      else .ok (.vnum (l - r * (rat_trunc (l / r) : ℚ)))
  | .tokGt => .ok (.vbool (decide (r < l)))
  | .tokLt => .ok (.vbool (decide (l < r)))
  | .tokGte => .ok (.vbool (decide (r ≤ l)))
  | .tokLte => .ok (.vbool (decide (l ≤ r)))
  | .tokEq => .ok (.vbool (decide (l = r)))
  | .tokNeq => .ok (.vbool (decide (l ≠ r)))
  | _ => .thrown "unsupported operand types for binary op"

/-- Shortcut for the string-concatenation guard of TOKEN_PLUS. -/
def is_vstr : Value → Bool
  | .vstr _ => true
  | _ => false

mutual
/-- eval_node (interpreter.c, lines 141-601) on the expression fragment.
The state is read-only because no expression form in the fragment mutates
the context.  NODE_VARIABLE returns a val_copy of the binding; its fallback
to the function registry, the class-method and map/filter/reduce special
cases of NODE_FUNC_CALL, and the function-valued-variable fallback all fall
through here because the function and class registries stay empty in the
fragment, leaving builtin dispatch and the undefined-function error. -/
def eval : InterpState → Expr → ERes
  | _, .num n => .ok (.vnum n)
  | _, .str s => .ok (.vstr s)
  | _, .boolLit b => .ok (.vbool b)
  | _, .nullLit => .ok .vnull
  | st, .var name =>
      match interp_get_var st name with
      | some v => .ok (val_copy v)
      | none => .thrown ("undefined variable " ++ name)
  | st, .arrLit elems =>
      match eval_list st elems with
      | .okL vs => .ok (.varr vs)
      | .thrownL m => .thrown m
  | st, .binary op l r =>
      match eval st l with
      | .thrown m => .thrown m
      | .ok left =>
          if op = .tokAnd then
            -- short-circuit: a falsy left operand yields bool false without
            -- evaluating the right; otherwise the right operand is coerced,
            -- val_bool(val_is_truthy(right))  (interpreter.c, lines 198-204)
            if val_is_truthy left then
              match eval st r with
              | .ok right => .ok (.vbool (val_is_truthy right))
              | .thrown m => .thrown m
            else .ok (.vbool false)
          else if op = .tokOr then
            -- short-circuit: a truthy left operand is returned as-is;
            -- otherwise the right operand value is returned as-is
            -- (interpreter.c, lines 205-209)
            if val_is_truthy left then .ok left
            else eval st r
          else
            match eval st r with
            | .thrown m => .thrown m
            | .ok right =>
                if op = .tokPlus ∧ (is_vstr left || is_vstr right) then
                  .ok (.vstr (val_to_string left ++ val_to_string right))
                else
                  match left, right with
                  | .vnum l2, .vnum r2 => numeric_binop op l2 r2
                  | _, _ =>
                      if op = .tokEq then .ok (.vbool (val_equal left right))
                      else if op = .tokNeq then .ok (.vbool (! val_equal left right))
                      else .thrown "unsupported operand types for binary op"
  | st, .index arrExpr idxExpr =>
      match eval st arrExpr with
      | .thrown m => .thrown m
      | .ok arrv =>
          match eval st idxExpr with
          | .thrown m => .thrown m
          | .ok idxv =>
              match arrv, idxv with
              | .varr items, .vnum n =>
                  -- numeric index truncated by the (int) cast; negative
                  -- indices count from the end; out of range reads null
                  let i := rat_trunc n
                  let i2 := if i < 0 then i + items.length else i
                  if 0 ≤ i2 ∧ i2 < items.length then
                    .ok (val_copy (items.getD i2.toNat .vnull))
                  else .ok .vnull
              | .vobj entries, .vstr k =>
                  match scope_get entries k with
                  | some v => .ok (val_copy v)
                  | none => .ok .vnull
              | .vstr s, .vnum n =>
                  let i := rat_trunc n
                  let i2 := if i < 0 then i + s.length else i
                  if 0 ≤ i2 ∧ i2 < s.length then
                    .ok (.vstr (String.singleton (s.toList.getD i2.toNat ' ')))
                  else .ok .vnull
              | _, _ => .ok .vnull
  | st, .call name args =>
      match eval_list st args with
      | .thrownL m => .thrown m
      | .okL argVals =>
          match builtins_lookup name with
          | some f =>
              -- the result is kept; the argument vector after the call is
              -- freed by the interpreter (interpreter.c, lines 522-524),
              -- so builtin mutations of arguments are discarded here
              .ok (f argVals).fst
          | none => .thrown ("undefined function " ++ name)

/-- The left-to-right evaluation loop for argument and element lists. -/
def eval_list : InterpState → List Expr → EListRes
  | _, [] => .okL []
  | st, e :: rest =>
      match eval st e with
      | .thrown m => .thrownL m
      | .ok v =>
          match eval_list st rest with
          | .okL vs => .okL (v :: vs)
          | .thrownL m => .thrownL m
end

/-- Outcome of a statement: normal completion or an exception unwinding
toward the nearest try checkpoint (or the top level). -/
inductive SRes where
  | normal
  | thrown (msg : String)

mutual
/-- exec_stmt (interpreter.c, lines 605-916) on the statement fragment,
with a fuel counter as the totality device (the C recursion is unbounded;
fuel exhaustion returns none and every theorem quantifies over or fixes the
fuel).  The longjmp discipline of NODE_TRY_CATCH is made explicit: the
jump buffer installed by the try is removed only after the catch body has
run (try_depth-- on line 865 follows the catch body on line 859), so a
thrown outcome from the catch body lands at the same checkpoint again —
exec_catch below. -/
def exec_stmt : Nat → InterpState → Stmt → Option (SRes × InterpState)
  | 0, _, _ => none
  | Nat.succ fuel, st, stmt =>
      match stmt with
      | .print e =>
          match eval st e with
          | .ok v => some (.normal, { st with output := st.output ++ [val_to_string v] })
          | .thrown m => some (.thrown m, st)
      | .assign name value =>
          -- NODE_ASSIGN covers both let and bare assignment; both go
          -- through interp_set_var (interpreter.c, lines 618-624)
          match eval st value with
          | .ok v => some (.normal, interp_set_var st name v)
          | .thrown m => some (.thrown m, st)
      | .objAssign objExpr keyExpr valueExpr =>
          -- NODE_OBJ_ASSIGN (interpreter.c, lines 673-704): the container
          -- expression is evaluated — for a variable that is a val_copy,
          -- deep for arrays — then the value, then the bracket key.  The
          -- array branch checks 0 <= i < count with no negative-index
          -- adjustment, writes into the evaluated container, and the
          -- function ends with val_free(&obj): the updated container is
          -- discarded and the interpreter state is returned unchanged.
          -- (For objects the C container shares its table with the stored
          -- value, making the write visible; no object value occurs in the
          -- fragment's programs, so that aliasing is not modeled.)
          match eval st objExpr with
          | .thrown m => some (.thrown m, st)
          | .ok objv =>
              match eval st valueExpr with
              | .thrown m => some (.thrown m, st)
              | .ok valv =>
                  match objv with
                  | .varr items =>
                      match eval st keyExpr with
                      | .thrown m => some (.thrown m, st)
                      | .ok idxv =>
                          match idxv with
                          | .vnum n =>
                              let i := rat_trunc n
                              let _updated :=
                                if 0 ≤ i ∧ i < items.length then
                                  Value.varr (items.set i.toNat valv)
                                else Value.varr items
                              -- val_free(&obj): _updated is dropped
                              some (.normal, st)
                          | _ => some (.normal, st)
                  | _ => some (.normal, st)
      | .throwStmt e =>
          -- NODE_THROW (interpreter.c, lines 870-877): render the value,
          -- then throw_exception
          match eval st e with
          | .ok v => some (.thrown (val_to_string v), st)
          | .thrown m => some (.thrown m, st)
      | .exprStmt e =>
          match eval st e with
          | .ok _ => some (.normal, st)
          | .thrown m => some (.thrown m, st)
      | .tryCatch tryBody catchVar catchBody =>
          -- NODE_TRY_CATCH (interpreter.c, lines 828-868)
          let savedDepth := st.scopes.length
          match exec_stmts fuel (push_scope st) tryBody with
          | none => none
          | some (.normal, st1) => some (.normal, pop_scope st1)
          | some (.thrown msg, st1) =>
              exec_catch fuel savedDepth catchVar catchBody msg st1
termination_by structural fuel => fuel

/-- exec_stmts (interpreter.c, lines 918-923): statements in order; a
thrown outcome stops the sequence (the longjmp leaves the loop). -/
def exec_stmts : Nat → InterpState → List Stmt → Option (SRes × InterpState)
  | 0, _, _ => none
  | Nat.succ _, st, [] => some (.normal, st)
  | Nat.succ fuel, st, s :: rest =>
      match exec_stmt fuel st s with
      | none => none
      | some (.normal, st1) => exec_stmts fuel st1 rest
      | some (.thrown m, st1) => some (.thrown m, st1)
termination_by structural fuel => fuel

/-- The landing site of the try checkpoint (the setjmp else-branch,
interpreter.c, lines 842-864): unwind the scope stack to the depth saved on
entry, clear the control-flow flags (none arise in the fragment), push the
catch scope, bind the catch variable to the exception message, and run the
catch body.  Because try_depth is decremented only after this branch, a
throw inside the catch body longjmps to the same checkpoint: the recursive
call below. -/
def exec_catch : Nat → Nat → Option String → List Stmt → String → InterpState →
    Option (SRes × InterpState)
  | 0, _, _, _, _, _ => none
  | Nat.succ fuel, savedDepth, catchVar, catchBody, msg, st =>
      let st1 := push_scope (restore_scopes savedDepth st)
      let st2 :=
        match catchVar with
        | some v => interp_def_var st1 v (.vstr msg)
        | none => st1
      match exec_stmts fuel st2 catchBody with
      | none => none
      | some (.normal, st3) => some (.normal, pop_scope st3)
      | some (.thrown m2, st3) =>
          exec_catch fuel savedDepth catchVar catchBody m2 st3
termination_by structural fuel => fuel
end

/-- The interpreter context right after interp_init: one empty scope frame,
empty globals, nothing printed. -/
def init_state : InterpState := { scopes := [[]], globals := [], output := [] }

/-! ## Arithmetic lemmas for the integer-division semantics -/

/-- Truncation toward zero commutes with negation. -/
theorem rat_trunc_neg (x : ℚ) : rat_trunc (-x) = - rat_trunc x := by
  unfold rat_trunc
  rcases lt_trichotomy x 0 with h | h | h
  · rw [if_pos (by linarith), if_neg (by linarith), Int.floor_neg]
  · simp [h]
  · rw [if_neg (by linarith), if_pos (by linarith), Int.ceil_neg]

/-- Truncation of an integer is itself. -/
theorem rat_trunc_intCast (z : ℤ) : rat_trunc (z : ℚ) = z := by
  unfold rat_trunc
  rcases le_or_lt 0 z with h | h
  · rw [if_pos (by exact_mod_cast h), Int.floor_intCast]
  · rw [if_neg (not_le.mpr (by exact_mod_cast h)), Int.ceil_intCast]

/-- The floor of an integer quotient over ℚ is the Euclidean quotient when
the divisor is positive. -/
theorem floor_intCast_div_pos (p q : ℤ) (hq : 0 < q) : ⌊(p : ℚ) / (q : ℚ)⌋ = p / q := by
  have hq0 : (0 : ℚ) < (q : ℚ) := by exact_mod_cast hq
  have hid : (q : ℚ) * ((p / q : ℤ) : ℚ) + ((p % q : ℤ) : ℚ) = (p : ℚ) := by
    exact_mod_cast congrArg (Int.cast : ℤ → ℚ) (Int.ediv_add_emod p q)
  have hm0 : (0 : ℚ) ≤ ((p % q : ℤ) : ℚ) := by
    exact_mod_cast Int.emod_nonneg p (ne_of_gt hq)
  have hmq : ((p % q : ℤ) : ℚ) < (q : ℚ) := by
    exact_mod_cast Int.emod_lt_of_pos p hq
  rw [Int.floor_eq_iff]
  constructor
  · rw [le_div_iff₀ hq0]
    nlinarith
  · rw [div_lt_iff₀ hq0]
    nlinarith

/-- C `long` division truncates toward zero: the nonnegative case. -/
theorem tdiv_eq_rat_trunc_pos (p q : ℤ) (hp : 0 ≤ p) (hq : 0 < q) :
    p.tdiv q = rat_trunc ((p : ℚ) / (q : ℚ)) := by
  have hq0 : (0 : ℚ) < (q : ℚ) := by exact_mod_cast hq
  have hnn : (0 : ℚ) ≤ (p : ℚ) / (q : ℚ) :=
    div_nonneg (by exact_mod_cast hp) (le_of_lt hq0)
  rw [Int.tdiv_eq_ediv hp (le_of_lt hq)]
  unfold rat_trunc
  rw [if_pos hnn, floor_intCast_div_pos p q hq]

/-- C `long` division computes the quotient truncated toward zero, for any
nonzero divisor. -/
theorem tdiv_eq_rat_trunc (p q : ℤ) (hq : q ≠ 0) :
    p.tdiv q = rat_trunc ((p : ℚ) / (q : ℚ)) := by
  rcases lt_or_gt_of_ne hq with hqneg | hqpos
  · have h1 : p.tdiv q = -(p.tdiv (-q)) := by
      rw [← Int.tdiv_neg, neg_neg]
    have h2 : ((p : ℚ) / (q : ℚ)) = -((p : ℚ) / ((-q : ℤ) : ℚ)) := by
      push_cast
      ring
    rw [h1, h2, rat_trunc_neg, neg_inj]
    rcases le_or_lt 0 p with hp | hp
    · exact tdiv_eq_rat_trunc_pos p (-q) hp (by omega)
    · have h3 : p.tdiv (-q) = -((-p).tdiv (-q)) := by
        rw [← Int.neg_tdiv, neg_neg]
      have h4 : ((p : ℚ) / ((-q : ℤ) : ℚ)) = -(((-p : ℤ) : ℚ) / ((-q : ℤ) : ℚ)) := by
        push_cast
        ring
      rw [h3, h4, rat_trunc_neg, neg_inj]
      exact tdiv_eq_rat_trunc_pos (-p) (-q) (by omega) (by omega)
  · rcases le_or_lt 0 p with hp | hp
    · exact tdiv_eq_rat_trunc_pos p q hp hqpos
    · have h3 : p.tdiv q = -((-p).tdiv q) := by
        rw [← Int.neg_tdiv, neg_neg]
      have h4 : ((p : ℚ) / (q : ℚ)) = -(((-p : ℤ) : ℚ) / (q : ℚ)) := by
        push_cast
        ring
      rw [h3, h4, rat_trunc_neg, neg_inj]
      exact tdiv_eq_rat_trunc_pos (-p) q (by omega) hqpos

/-! ## Programs and auxiliary lemmas for the exception claims -/

/-- The inner statement of the nested-catch scenario:
`try « throw "a" » catch (e) « throw "b" »`. -/
def c1_inner_try : Stmt := .tryCatch [.throwStmt (.str "a")] (some "e") [.throwStmt (.str "b")]

/-- The nested-catch program:
`try « try « throw "a" » catch (e) « throw "b" » » catch (f) « print f »`. -/
def c1_program : List Stmt := [.tryCatch [c1_inner_try] (some "f") [.print (.var "f")]]

/-- A single throw of a string literal either exhausts the fuel or throws
that string without touching the state. -/
theorem throw_lit_stmts (f : Nat) (st : InterpState) (s : String) :
    exec_stmts f st [.throwStmt (.str s)] = none ∨
    exec_stmts f st [.throwStmt (.str s)] = some (.thrown s, st) := by
  match f with
  | 0 => exact Or.inl rfl
  | 1 => exact Or.inl rfl
  | Nat.succ (Nat.succ g) => exact Or.inr rfl

/-- The catch landing site with body `throw "b"` never completes: the
rethrow lands at the very checkpoint that is handling the exception, for
every fuel bound. -/
theorem exec_catch_rethrow_none : ∀ (f : Nat) (sd : Nat) (st : InterpState) (msg : String),
    exec_catch f sd (some "e") [.throwStmt (.str "b")] msg st = none := by
  intro f
  induction f with
  | zero => intro sd st msg; rfl
  | succ fuel ih =>
      intro sd st msg
      simp only [exec_catch]
      rcases throw_lit_stmts fuel
          (interp_def_var (push_scope (restore_scopes sd st)) "e" (.vstr msg)) "b" with h | h <;>
        rw [h]
      exact ih sd _ "b"

/-- The inner try of the nested-catch program never completes. -/
theorem c1_inner_none : ∀ (f : Nat) (st : InterpState), exec_stmt f st c1_inner_try = none := by
  intro f st
  match f with
  | 0 => rfl
  | Nat.succ fuel =>
      simp only [exec_stmt, c1_inner_try]
      rcases throw_lit_stmts fuel (push_scope st) "a" with h | h <;> rw [h]
      exact exec_catch_rethrow_none fuel st.scopes.length (push_scope st) "a"

/-- The outer try body of the nested-catch program never completes. -/
theorem c1_inner_stmts_none : ∀ (f : Nat) (st : InterpState),
    exec_stmts f st [c1_inner_try] = none := by
  intro f st
  match f with
  | 0 => rfl
  | Nat.succ fuel =>
      simp only [exec_stmts]
      rw [c1_inner_none fuel st]

/-- The assignment half of the index-write scenario:
`arr = [1, 2, 3]` followed by `arr[0] = 9`. -/
def c2_program : List Stmt :=
  [ .assign "arr" (.arrLit [.num 1, .num 2, .num 3]),
    .objAssign (.var "arr") (.num 0) (.num 9) ]

/-- The same scenario with a negative index: `arr[-1] = 9`. -/
def c2_program_neg : List Stmt :=
  [ .assign "arr" (.arrLit [.num 1, .num 2, .num 3]),
    .objAssign (.var "arr") (.num (-1)) (.num 9) ]

/-- The state both programs end in: `arr` still holds `[1, 2, 3]`. -/
def c2_final : InterpState :=
  { scopes := [[("arr", .varr [.vnum 1, .vnum 2, .vnum 3])]], globals := [], output := [] }

/-- The state binding `a` to an aggregate for the identity-equality check. -/
def c7_state : InterpState :=
  { scopes := [[("a", .varr [])]], globals := [], output := [] }

/-! ## Claim theorems -/

/-- C1: the claim says an exception thrown inside a catch body propagates to
the next enclosing try, so that
`try « try « throw "a" » catch (e) « throw "b" » » catch (f) « f »`
evaluates the outer catch with f bound to a string containing "b".  The code
decrements try_depth only after the catch body (interpreter.c, line 865), so
the rethrow longjmps to the checkpoint of the try whose catch is executing:
the program re-enters the inner catch with message "b" forever and never
reaches the outer catch — for every fuel bound the run is unfinished. -/
theorem c1_catch_rethrow_diverges :
    ∀ (fuel : Nat) (st : InterpState), exec_stmts fuel st c1_program = none := by
  intro fuel st
  match fuel with
  | 0 => rfl
  | Nat.succ f =>
      simp only [c1_program, exec_stmts]
      have houter : exec_stmt f st (.tryCatch [c1_inner_try] (some "f") [.print (.var "f")]) =
          none := by
        match f with
        | 0 => rfl
        | Nat.succ g =>
            simp only [exec_stmt]
            rw [c1_inner_stmts_none g (push_scope st)]
      rw [houter]

/-- C2: the claim says `arr[i] = v` makes a later read of `arr[i]` yield v.
In the code, NODE_OBJ_ASSIGN evaluates the container variable through
eval_node, which deep-copies array values (val_copy), writes into the copy
and frees it; the stored array is untouched.  Running
`arr = [1,2,3]; arr[0] = 9` leaves `arr` at `[1,2,3]` and `arr[0]` reads 1,
not 9; a negative-index write (`arr[-1] = 9`), which the claim says counts
from the end, is likewise without effect (the write path does not adjust
negative indices). -/
theorem c2_array_write_lost :
    exec_stmts 10 init_state c2_program = some (.normal, c2_final) ∧
    exec_stmts 10 init_state c2_program_neg = some (.normal, c2_final) ∧
    eval c2_final (.index (.var "arr") (.num 0)) = .ok (.vnum 1) ∧
    ERes.ok (Value.vnum 1) ≠ .ok (.vnum 9) := by
  refine ⟨rfl, rfl, rfl, ?_⟩
  simp only [ne_eq, ERes.ok.injEq, Value.vnum.injEq]
  norm_num

/-- C3 counterexample: the claim says and/or return the actual deciding
operand value; for `5 and 7` the deciding operand is 7, but the code
returns the coerced boolean true (val_bool(val_is_truthy(right)),
interpreter.c, lines 198-204). -/
theorem c3_and_counterexample :
    eval init_state (.binary .tokAnd (.num 5) (.num 7)) = .ok (.vbool true) ∧
    ERes.ok (Value.vbool true) ≠ .ok (.vnum 7) := by
  refine ⟨rfl, ?_⟩
  intro h
  injection h with h2
  exact Value.noConfusion h2

/-- C3 amended: `and`/`or` short-circuit — the right operand is not
evaluated when the left decides (the result is fixed for every right
operand, even one whose evaluation would fail) — and `or` yields the actual
deciding operand value, but `and` yields a coerced boolean: false when the
left is falsy, else the truthiness of the right operand. -/
theorem c3_short_circuit_amended : ∀ (st : InterpState) (l r : Expr) (lv : Value),
    eval st l = .ok lv →
    (val_is_truthy lv = false →
        eval st (.binary .tokAnd l r) = .ok (.vbool false) ∧
        eval st (.binary .tokOr l r) = eval st r) ∧
    (val_is_truthy lv = true →
        eval st (.binary .tokOr l r) = .ok lv ∧
        ∀ rv : Value, eval st r = .ok rv →
          eval st (.binary .tokAnd l r) = .ok (.vbool (val_is_truthy rv))) := by
  intro st l r lv hl
  constructor
  · intro hf
    refine ⟨?_, ?_⟩ <;> (simp only [eval, hl, hf]; simp)
  · intro ht
    refine ⟨?_, ?_⟩
    · simp only [eval, hl, ht]
      simp
    · intro rv hr
      simp only [eval, hl, ht, hr]
      simp

/-- C3 witness: the amended short-circuit theorem applied at `0 and nope`
where `nope` is an unbound variable whose evaluation would fail. -/
theorem c3_short_circuit_amended_witness :
    eval init_state (.num 0) = .ok (.vnum 0) ∧
    val_is_truthy (.vnum 0) = false ∧
    eval init_state (.binary .tokAnd (.num 0) (.var "nope")) = .ok (.vbool false) := by
  refine ⟨rfl, rfl, ?_⟩
  exact ((c3_short_circuit_amended init_state (.num 0) (.var "nope") (.vnum 0) rfl).1 rfl).1

/-- C4: the claim says parse(stringify(v)) returns v for every
non-function value.  bi_jsonParse is a stub that returns null on every
input (builtins.c, lines 505-511), so the round trip yields null for every
v; at v = 42 the result null differs from 42. -/
theorem c4_roundtrip_broken :
    (∀ v : Value, (bi_jsonParse [(bi_stringify [v]).fst]).fst = .vnull) ∧
    (bi_jsonParse [(bi_stringify [.vnum 42]).fst]).fst = .vnull ∧
    Value.vnull ≠ .vnum 42 := by
  refine ⟨fun v => rfl, rfl, ?_⟩
  intro h
  exact Value.noConfusion h

/-- C5: for numbers a, b with b nonzero, `a / b` evaluates to the quotient
truncated toward zero (converted back to a number) when both operands equal
their floor, and to the exact quotient otherwise — doubles idealized as
rationals. -/
theorem c5_integer_division : ∀ (st : InterpState) (a b : ℚ), b ≠ 0 →
    eval st (.binary .tokDivide (.num a) (.num b)) =
      .ok (.vnum (if a = (⌊a⌋ : ℚ) ∧ b = (⌊b⌋ : ℚ)
                  then ((rat_trunc (a / b) : ℤ) : ℚ) else a / b)) := by
  intro st a b hb
  have step : eval st (.binary .tokDivide (.num a) (.num b)) =
      (if b = 0 then ERes.thrown "division by zero"
       else if a = (⌊a⌋ : ℚ) ∧ b = (⌊b⌋ : ℚ) then
         .ok (.vnum (((rat_trunc a).tdiv (rat_trunc b) : ℤ) : ℚ))
       else .ok (.vnum (a / b))) := rfl
  rw [step, if_neg hb]
  split_ifs with h
  · obtain ⟨ha2, hb2⟩ := h
    have hbz : ⌊b⌋ ≠ 0 := by
      intro hz
      rw [hz] at hb2
      exact hb (by simpa using hb2)
    rw [ha2, hb2, rat_trunc_intCast, rat_trunc_intCast,
        tdiv_eq_rat_trunc ⌊a⌋ ⌊b⌋ hbz]
  · rfl

/-- C5 witness: `10 / 3` takes the integer branch and evaluates to 3. -/
theorem c5_integer_division_witness :
    (3 : ℚ) ≠ 0 ∧
    eval init_state (.binary .tokDivide (.num 10) (.num 3)) = .ok (.vnum 3) := by
  refine ⟨by norm_num, ?_⟩
  rw [c5_integer_division init_state 10 3 (by norm_num)]
  have hcond : (10 : ℚ) = (⌊(10 : ℚ)⌋ : ℚ) ∧ (3 : ℚ) = (⌊(3 : ℚ)⌋ : ℚ) := by norm_num
  rw [if_pos hcond]
  have htr : rat_trunc ((10 : ℚ) / 3) = 3 := by
    unfold rat_trunc
    rw [if_pos (by norm_num)]
    rw [show ((10 : ℚ)) = ((10 : ℤ) : ℚ) by norm_num,
        show ((3 : ℚ)) = ((3 : ℤ) : ℚ) by norm_num,
        floor_intCast_div_pos 10 3 (by norm_num)]
    decide
  rw [htr]
  norm_num

/-- A string has length zero exactly when it is empty. -/
theorem string_length_zero_iff (s : String) : s.length = 0 ↔ s = "" := by
  constructor
  · intro h
    cases s with
    | mk data =>
        have hd : data = [] := List.length_eq_zero.mp h
        rw [hd]
  · rintro rfl
    rfl

/-- C6: a value is falsy exactly when it is null, false, the number 0, the
empty string, or the empty array; every other value — every object,
function and builtin, and every nonempty aggregate — is truthy. -/
theorem c6_truthiness : ∀ v : Value,
    val_is_truthy v = false ↔
      (v = .vnull ∨ v = .vbool false ∨ v = .vnum 0 ∨ v = .vstr "" ∨ v = .varr []) := by
  intro v
  cases v <;> simp [val_is_truthy]
  exact string_length_zero_iff _

/-- C7 counterexample: the claim says an aggregate compares equal to
itself; the code's val_equal falls to the default arm for aggregates and
returns 0, so `a == a` with a an array evaluates to false, and val_equal on
the very same array value is false. -/
theorem c7_identity_counterexample :
    eval c7_state (.binary .tokEq (.var "a") (.var "a")) = .ok (.vbool false) ∧
    val_equal (.varr []) (.varr []) = false := ⟨rfl, rfl⟩

/-- C7 amended: `==` is true exactly for primitives of the same kind with
equal value and for strings with identical content; arrays, objects,
functions and builtins always compare unequal, even to themselves. -/
theorem c7_equality_amended : ∀ a b : Value,
    val_equal a b = true ↔
      ((a = .vnull ∧ b = .vnull) ∨
       (∃ x : Bool, a = .vbool x ∧ b = .vbool x) ∨
       (∃ q : ℚ, a = .vnum q ∧ b = .vnum q) ∨
       (∃ s : String, a = .vstr s ∧ b = .vstr s)) := by
  intro a b
  cases a <;> cases b <;> simp [val_equal]
  case vbool.vbool x y => exact eq_comm
  case vnum.vnum x y => exact eq_comm
  case vstr.vstr s t =>
    constructor
    · rintro ⟨-, h⟩
      exact h.symm
    · rintro rfl
      exact ⟨rfl, rfl⟩

/-- C8 counterexample: the claim says len returns the entry count of an
object; bi_len handles only strings and arrays and returns 0 for an object
with one entry. -/
theorem c8_object_len_counterexample :
    (bi_len [.vobj [("a", .vnum 1)]]).fst = .vnum 0 ∧
    Value.vnum 0 ≠ .vnum 1 := by
  refine ⟨rfl, ?_⟩
  simp only [ne_eq, Value.vnum.injEq]
  norm_num

/-- C8 amended: len returns the character count of a string and the element
count of an array, and 0 for every other value — objects included — and for
a missing argument. -/
theorem c8_len_amended :
    (∀ (s : String) (rest : List Value),
        (bi_len (.vstr s :: rest)).fst = .vnum (s.length : ℚ)) ∧
    (∀ (items : List Value) (rest : List Value),
        (bi_len (.varr items :: rest)).fst = .vnum (items.length : ℚ)) ∧
    (∀ (entries : List (String × Value)) (rest : List Value),
        (bi_len (.vobj entries :: rest)).fst = .vnum 0) ∧
    (bi_len []).fst = .vnum 0 :=
  ⟨fun _ _ => rfl, fun _ _ => rfl, fun _ _ => rfl, rfl⟩

/-- C9 counterexample: the claim lists `complex` as an alias of `class`;
check_keyword has no arm for it, so `complex` lexes as a plain
identifier, not as the class keyword. -/
theorem c9_complex_counterexample :
    check_keyword "complex" = .tokIdentifier ∧
    TokenType.tokIdentifier ≠ .tokClass := by
  exact ⟨rfl, by decide⟩

/-- C9 amended: every alias of the spec list except `complex` maps to the
same token kind as its conventional keyword — perceive/let, dream/fn,
individuation/fn, archetype/class, confront/try, embrace/catch,
reject/throw, project/print, manifest/return, unconscious/null, Self/this,
emerge/new, integrate/import — while `complex` is an ordinary
identifier. -/
theorem c9_aliases_amended :
    check_keyword "perceive" = check_keyword "let" ∧
    check_keyword "dream" = check_keyword "fn" ∧
    check_keyword "individuation" = check_keyword "fn" ∧
    check_keyword "archetype" = check_keyword "class" ∧
    check_keyword "confront" = check_keyword "try" ∧
    check_keyword "embrace" = check_keyword "catch" ∧
    check_keyword "reject" = check_keyword "throw" ∧
    check_keyword "project" = check_keyword "print" ∧
    check_keyword "manifest" = check_keyword "return" ∧
    check_keyword "unconscious" = check_keyword "null" ∧
    check_keyword "Self" = check_keyword "this" ∧
    check_keyword "emerge" = check_keyword "new" ∧
    check_keyword "integrate" = check_keyword "import" ∧
    check_keyword "complex" = .tokIdentifier := by
  refine ⟨rfl, rfl, rfl, rfl, rfl, rfl, rfl, rfl, rfl, rfl, rfl, rfl, rfl, rfl⟩

/-- C10: a variable reference evaluates to a val_copy (deep for arrays),
call arguments are such copies, and the interpreter frees the argument
vector after a builtin call; hence `push(a, v)` and the desugared method
call `a.push(v)` complete normally and leave the whole interpreter state —
in particular the array stored in `a` — unchanged. -/
theorem c10_push_no_effect : ∀ (fuel : Nat) (st : InterpState) (items : List Value) (q : ℚ),
    interp_get_var st "a" = some (.varr items) →
    exec_stmt (fuel + 1) st (.exprStmt (.call "push" [.var "a", .num q])) =
        some (.normal, st) ∧
    exec_stmt (fuel + 1) st (.exprStmt (.call "__method_push" [.var "a", .num q])) =
        some (.normal, st) := by
  intro fuel st items q h
  constructor <;>
  · simp only [exec_stmt, eval, eval_list, h, val_copy_id]
    simp [builtins_lookup, bi_push, bi_method_push]

/-- C10 witness: pushing 99 onto the singleton array bound to `a` leaves
the state unchanged. -/
theorem c10_push_no_effect_witness :
    interp_get_var { scopes := [[("a", .varr [.vnum 1])]], globals := [], output := [] }
        "a" = some (.varr [.vnum 1]) ∧
    exec_stmt 6 { scopes := [[("a", .varr [.vnum 1])]], globals := [], output := [] }
        (.exprStmt (.call "push" [.var "a", .num 99])) =
      some (.normal, { scopes := [[("a", .varr [.vnum 1])]], globals := [], output := [] }) := by
  refine ⟨rfl, ?_⟩
  exact (c10_push_no_effect 5
    { scopes := [[("a", .varr [.vnum 1])]], globals := [], output := [] }
    [.vnum 1] 99 rfl).1

end Jung
